/-
Verification of the pace_yourself core: a shallow embedding of the course
simulator and pacing optimizer (app/optimization.py), the speed-solver
residual (app/cycling_physics.py), the course ingestion helper, and the
power-duration curve fit (app/rider.py), together with theorems settling
the specification claims about them.

Conventions:
  * Rational numbers stand in for Python floats in the simulator and
    optimizer, so every simulator-level definition is executable.
  * The numeric speed solver (scipy brentq inside calculate_speed_and_plot)
    is transcendental; at the simulator boundary it is abstracted as an
    oracle `solve : power -> segment -> Option speed` (none models the
    solver raising), while its residual equation is embedded exactly over
    the reals for the solver-level claims.
  * Python float infinity (the infeasibility marker) is embedded as
    `Option` with `none` standing for the infinite total time.
-/
import Mathlib

namespace PaceYourself

/-- A course segment row as consumed by
`CourseOptimizer.simulate_course_time`: gradient (decimal fraction),
distance (m), wind (m/s, positive = tailwind), altitude (m). -/
structure Seg where
  gradient : ℚ
  distance : ℚ
  wind : ℚ
  altitude : ℚ
  deriving DecidableEq, Repr

/-- A per-segment result record, mirroring the dict appended to `results`
in `simulate_course_time` (the `segment` label column is omitted). -/
structure SegResult where
  gradient : ℚ
  length : ℚ
  wind : ℚ
  speed : ℚ
  time : ℚ
  power : ℚ
  w_remaining : ℚ
  total_energy_used : ℚ
  deriving DecidableEq, Repr

/-- The tuple returned by `simulate_course_time`: per-segment results,
total time (`none` embeds the float infinity returned on W-prime
depletion), remaining W-prime, total energy used. -/
structure SimOutcome where
  results : List SegResult
  totalTime : Option ℚ
  w_remaining : ℚ
  total_energy_used : ℚ
  deriving DecidableEq, Repr

/-- The speed used for one segment: the solver result when the physics
model succeeds, otherwise the fallback from the `except` branch of
`simulate_course_time`: `max(5.0, min(20.0, power / 200.0))`. -/
def seg_speed (solve : ℚ → Seg → Option ℚ) (power : ℚ) (s : Seg) : ℚ :=
  match solve power s with
  | some v => v
  | none => max 5 (min 20 (power / 200))

/-- Prepend one completed segment record to the outcome of the rest of the
run, keeping the totals produced by the tail of the loop. -/
def sim_cons (s : Seg) (speed t power w2 e2 : ℚ) (out : SimOutcome) : SimOutcome :=
  ⟨⟨s.gradient, s.distance, s.wind, speed, t, power, w2, e2⟩ :: out.results,
    out.totalTime, out.w_remaining, out.total_energy_used⟩

/-- The loop body of `CourseOptimizer.simulate_course_time`, with the
running accumulators (elapsed time `tAcc`, remaining W-prime `w`, energy
`eAcc`) made explicit.  `power > critical_power` depletes W-prime and
aborts with an infinite (`none`) total time as soon as it goes negative,
before recording the segment; otherwise recovery is clamped at `wp`. -/
def sim_aux (power cp wp : ℚ) (solve : ℚ → Seg → Option ℚ) :
    List Seg → ℚ → ℚ → ℚ → SimOutcome
  | [], tAcc, w, eAcc => ⟨[], some tAcc, w, eAcc⟩
  | s :: rest, tAcc, w, eAcc =>
    let speed := seg_speed solve power s
    let t := s.distance / speed
    if cp < power then
      if w - (power - cp) * t < 0 then
        ⟨[], none, w - (power - cp) * t, eAcc⟩
      else
        sim_cons s speed t power (w - (power - cp) * t) (eAcc + power * t)
          (sim_aux power cp wp solve rest (tAcc + t)
            (w - (power - cp) * t) (eAcc + power * t))
    else
      sim_cons s speed t power (min (w + (cp - power) * t) wp) (eAcc + power * t)
        (sim_aux power cp wp solve rest (tAcc + t)
          (min (w + (cp - power) * t) wp) (eAcc + power * t))

/-- `CourseOptimizer.simulate_course_time(power, course_segments)` with
rider parameters `cp` (critical power) and `wp` (W-prime capacity):
accumulators start at zero and W-prime starts full. -/
def simulate_course_time (power cp wp : ℚ) (solve : ℚ → Seg → Option ℚ)
    (segs : List Seg) : SimOutcome :=
  sim_aux power cp wp solve segs 0 wp 0

/-- One row of an aggregated course, as read by
`create_course_segments_from_course`: distance_sum (km), gradient_mean
(percent), altitude_mean (m). -/
structure CourseRow where
  distance_sum : ℚ
  gradient_mean : ℚ
  altitude_mean : ℚ
  deriving DecidableEq, Repr

/-- `create_course_segments_from_course`: converts each row to an
optimization segment (km to m, percent gradient to decimal, zero wind) and
pairs the list with the flag saying whether the extreme-gradient warning
(`abs(gradient) > 0.5` after conversion) was issued.  The rows are passed
through unchanged apart from the unit conversions. -/
def create_course_segments_from_course (rows : List CourseRow) :
    List Seg × Bool :=
  (rows.map (fun r =>
      ⟨r.gradient_mean / 100, r.distance_sum * 1000, 0, r.altitude_mean⟩),
    rows.any (fun r => 1/2 < |r.gradient_mean / 100|))

/-- The hyperbolic power-duration model from `WTankCalculator`:
`P(t) = CP + W_prime / t`. -/
def power_duration_model (t CP W_prime : ℚ) : ℚ := CP + W_prime / t

/-- `WTankCalculator._estimate_w_tank_from_curve`, which calls
`scipy.optimize.curve_fit` on `power_duration_model`.  The model is linear
in the parameters (CP, W_prime) with regressor `1/t`, so the least-squares
optimum that curve_fit converges to is the ordinary least-squares solution
on `(1/t, P)` pairs, embedded here in closed form; the fit carries no
parameter bounds, exactly as the source passes none.  Degenerate normal
equations (fewer than two distinct durations, where the library call
instead fails with a generic error) are represented as `none`.  Input is
the `best_efforts` mapping as (duration, power) pairs; output is
`(estimated_cp, w_prime)`. -/
def estimate_w_tank_from_curve (pts : List (ℚ × ℚ)) : Option (ℚ × ℚ) :=
  let n : ℚ := pts.length
  let sx := (pts.map (fun q => 1 / q.1)).sum
  let sy := (pts.map (fun q => q.2)).sum
  let sxx := (pts.map (fun q => (1 / q.1) * (1 / q.1))).sum
  let sxy := (pts.map (fun q => (1 / q.1) * q.2)).sum
  let d := n * sxx - sx * sx
  if d = 0 then none
  else
    let wprime := (n * sxy - sx * sy) / d
    let cp := (sy - wprime * sx) / n
    some (cp, wprime)

/-- Gravitational acceleration used by `calculate_speed_and_plot`. -/
noncomputable def g_accel : ℝ := 981/100

/-- The residual `power_equation(v)` from `calculate_speed_and_plot`:
required power at speed `v` minus supplied power.  Note that the
`drivetrain_efficiency` argument of the enclosing function is in scope but
(exactly as in the source) never used. -/
noncomputable def power_equation (Power rho CdA Crr mass
    drivetrain_efficiency gradient v_wind v : ℝ) : ℝ :=
  ((1/2) * rho * CdA * (v - v_wind)^2 +
      mass * g_accel * Real.sin (Real.arctan gradient) +
      mass * g_accel * Crr * Real.cos (Real.arctan gradient)) * v - Power

/-- A root of the residual inside the bracket `[0.1, 50]` of
`root_scalar` with `brentq`.  This is a sound over-approximation of the
solver output: whatever speed brentq returns is such a root, so a
property proved for every such root holds in particular for the returned
speed.  It is only an over-approximation (when the bracket holds several
roots, brentq returns one specific root), so refutations never rest on
it alone: they use `isUniqueSolveRoot` below, which pins the return value
down. -/
def isSolveRoot (Power rho CdA Crr mass drivetrain_efficiency gradient
    v_wind v : ℝ) : Prop :=
  power_equation Power rho CdA Crr mass drivetrain_efficiency gradient
      v_wind v = 0 ∧ 1/10 ≤ v ∧ v ≤ 50

/-- The unique root of the residual in the bracket `[0.1, 50]`.  When the
bracket ends have opposite residual signs, brentq converges to a root in
the bracket; when that root is moreover unique, the returned speed is
exactly this value, so statements about it are statements about the
concrete solver output. -/
def isUniqueSolveRoot (Power rho CdA Crr mass drivetrain_efficiency gradient
    v_wind v : ℝ) : Prop :=
  isSolveRoot Power rho CdA Crr mass drivetrain_efficiency gradient
      v_wind v ∧
  ∀ u, power_equation Power rho CdA Crr mass drivetrain_efficiency gradient
      v_wind u = 0 → 1/10 ≤ u → u ≤ 50 → u = v

/-- A solver oracle on which the physics model always fails, so the
simulator always takes the fallback-speed path. -/
def noSolve : ℚ → Seg → Option ℚ := fun _ _ => none

/-- A flat, windless one-kilometre segment at sea level. -/
def flatKm : Seg := ⟨0, 1000, 0, 0⟩

/-- Once a run of the simulator loop has aborted (infinite total time),
appending further segments to the course changes nothing: the loop
returned before reaching them. -/
theorem sim_aux_append_of_none (power cp wp : ℚ) (solve : ℚ → Seg → Option ℚ) :
    ∀ (pre rest : List Seg) (tAcc w eAcc : ℚ),
      (sim_aux power cp wp solve pre tAcc w eAcc).totalTime = none →
      sim_aux power cp wp solve (pre ++ rest) tAcc w eAcc =
        sim_aux power cp wp solve pre tAcc w eAcc := by
  intro pre
  induction pre with
  | nil => intro rest t w e h; simp [sim_aux] at h
  | cons s pre ih =>
    intro rest t w e h
    simp only [List.cons_append, sim_aux, List.append_eq] at h ⊢
    split_ifs at h ⊢ with h1 h2
    · rfl
    · simp only [sim_cons] at h ⊢
      rw [ih rest _ _ _ h]
    · simp only [sim_cons] at h ⊢
      rw [ih rest _ _ _ h]

/-- The loop only ever reports an infinite total time through the
depletion branch: on abort the remaining W-prime is negative and the
power was above critical power. -/
theorem sim_aux_none_blowup (power cp wp : ℚ) (solve : ℚ → Seg → Option ℚ) :
    ∀ (segs : List Seg) (tAcc w eAcc : ℚ),
      (sim_aux power cp wp solve segs tAcc w eAcc).totalTime = none →
      (sim_aux power cp wp solve segs tAcc w eAcc).w_remaining < 0 ∧ cp < power := by
  intro segs
  induction segs with
  | nil => intro t w e h; simp [sim_aux] at h
  | cons s segs ih =>
    intro t w e h
    simp only [sim_aux] at h ⊢
    split_ifs at h ⊢ with h1 h2
    · exact ⟨h2, h1⟩
    · simp only [sim_cons] at h ⊢
      exact ih _ _ _ h
    · simp only [sim_cons] at h ⊢
      exact ih _ _ _ h

/-- C1: if W-prime drops below zero on some segment, the simulator aborts
at that segment: the outcome (partial per-segment results, infinite total
time embedded as the data value none, the negative W-prime, the energy so
far) is unchanged by any further segments, no exception is involved, and
the abort can only have come from the depletion branch. -/
theorem simulate_abort_infeasible (power cp wp : ℚ)
    (solve : ℚ → Seg → Option ℚ) (pre : List Seg)
    (h : (simulate_course_time power cp wp solve pre).totalTime = none) :
    (∀ rest, simulate_course_time power cp wp solve (pre ++ rest) =
        simulate_course_time power cp wp solve pre) ∧
    (simulate_course_time power cp wp solve pre).w_remaining < 0 ∧
    cp < power := by
  refine ⟨fun rest => ?_, sim_aux_none_blowup power cp wp solve pre 0 wp 0 h⟩
  exact sim_aux_append_of_none power cp wp solve pre rest 0 wp 0 h

/-- Witness for `simulate_abort_infeasible`: at 500 W against a critical
power of 300 W with 1 J of W-prime, the flat kilometre depletes the tank,
and appending a second kilometre leaves the outcome unchanged. -/
theorem simulate_abort_infeasible_witness :
    simulate_course_time 500 300 1 noSolve [flatKm, flatKm] =
      simulate_course_time 500 300 1 noSolve [flatKm] ∧
    (simulate_course_time 500 300 1 noSolve [flatKm]).w_remaining < 0 ∧
    (300 : ℚ) < 500 := by
  have h : (simulate_course_time 500 300 1 noSolve [flatKm]).totalTime = none := by
    norm_num [simulate_course_time, sim_aux, seg_speed, noSolve, flatKm]
  obtain ⟨h1, h2, h3⟩ := simulate_abort_infeasible 500 300 1 noSolve [flatKm] h
  exact ⟨h1 [flatKm], h2, h3⟩

/-- At or below critical power the loop keeps every W-prime value, both
the recorded per-segment ones and the final accumulator, at or below the
capacity `wp`: the recovery update is clamped by `min`. -/
theorem sim_aux_w_le (power cp wp : ℚ) (solve : ℚ → Seg → Option ℚ)
    (hp : power ≤ cp) :
    ∀ (segs : List Seg) (tAcc w eAcc : ℚ), w ≤ wp →
      (∀ r ∈ (sim_aux power cp wp solve segs tAcc w eAcc).results,
          r.w_remaining ≤ wp) ∧
      (sim_aux power cp wp solve segs tAcc w eAcc).w_remaining ≤ wp := by
  intro segs
  induction segs with
  | nil => intro t w e hw; simpa [sim_aux] using hw
  | cons s segs ih =>
    intro t w e hw
    simp only [sim_aux, if_neg (not_lt.mpr hp), sim_cons]
    have hw2 : min (w + (cp - power) * (s.distance / seg_speed solve power s)) wp ≤ wp :=
      min_le_right _ _
    obtain ⟨hall, hfin⟩ := ih (t + s.distance / seg_speed solve power s)
      (min (w + (cp - power) * (s.distance / seg_speed solve power s)) wp)
      (e + power * (s.distance / seg_speed solve power s)) hw2
    refine ⟨?_, hfin⟩
    intro r hr
    rcases List.mem_cons.mp hr with hhd | htl
    · rw [hhd]; exact hw2
    · exact hall r htl

/-- C2: for every segment sequence and constant power at or below critical
power, no W-prime value seen during the simulation exceeds the capacity:
every recorded `w_remaining` and the final one are at most `wp`, because
the recovery update clamps with `min(w + (cp - power) * t, wp)`. -/
theorem w_remaining_bounded (power cp wp : ℚ) (solve : ℚ → Seg → Option ℚ)
    (segs : List Seg) (hp : power ≤ cp) :
    (∀ r ∈ (simulate_course_time power cp wp solve segs).results,
        r.w_remaining ≤ wp) ∧
    (simulate_course_time power cp wp solve segs).w_remaining ≤ wp :=
  sim_aux_w_le power cp wp solve hp segs 0 wp 0 le_rfl

/-- Witness for `w_remaining_bounded` at 250 W against a 300 W critical
power over one flat kilometre with a 25 kJ tank. -/
theorem w_remaining_bounded_witness :
    (simulate_course_time 250 300 25000 noSolve [flatKm]).w_remaining ≤ 25000 :=
  (w_remaining_bounded 250 300 25000 noSolve [flatKm] (by norm_num)).2

/-- Running the loop exactly at critical power never takes the depletion
branch and the recovery term is zero, so a full tank stays exactly full
and the run completes with a finite total time. -/
theorem sim_aux_at_cp (cp wp : ℚ) (solve : ℚ → Seg → Option ℚ) :
    ∀ (segs : List Seg) (tAcc eAcc : ℚ),
      (sim_aux cp cp wp solve segs tAcc wp eAcc).w_remaining = wp ∧
      (sim_aux cp cp wp solve segs tAcc wp eAcc).totalTime.isSome := by
  intro segs
  induction segs with
  | nil => intro t e; simp [sim_aux]
  | cons s segs ih =>
    intro t e
    simp only [sim_aux, if_neg (lt_irrefl cp), sim_cons, sub_self, zero_mul,
      add_zero, min_self]
    exact ih _ _

/-- C7: simulating any course of zero-gradient, zero-wind, positive-length
segments at a constant power equal to critical power leaves the final
remaining W-prime exactly at the full capacity, with a finite total time:
the depletion branch is never entered and the recovery term is zero. -/
theorem w_conservation_at_cp (power cp wp : ℚ) (solve : ℚ → Seg → Option ℚ)
    (segs : List Seg) (hp : power = cp)
    (hsegs : ∀ s ∈ segs, s.gradient = 0 ∧ s.wind = 0 ∧ 0 < s.distance) :
    (simulate_course_time power cp wp solve segs).w_remaining = wp ∧
    (simulate_course_time power cp wp solve segs).totalTime.isSome := by
  subst hp
  exact sim_aux_at_cp power wp solve segs 0 0

/-- Witness for `w_conservation_at_cp`: a flat kilometre ridden exactly at
critical power keeps the tank at 25 kJ. -/
theorem w_conservation_at_cp_witness :
    (simulate_course_time 300 300 25000 noSolve [flatKm]).w_remaining = 25000 ∧
    (simulate_course_time 300 300 25000 noSolve [flatKm]).totalTime.isSome :=
  w_conservation_at_cp 300 300 25000 noSolve [flatKm] rfl
    (by intro s hs; rw [List.mem_singleton.mp hs]; norm_num [flatKm])

/-- The fallback speed is at least 5 m/s, so the per-segment speed is
positive whenever the solver oracle only returns positive speeds. -/
theorem seg_speed_pos (solve : ℚ → Seg → Option ℚ) (power : ℚ) (s : Seg)
    (hpos : ∀ v, solve power s = some v → 0 < v) :
    0 < seg_speed solve power s := by
  unfold seg_speed
  cases h : solve power s with
  | some v => exact hpos v h
  | none =>
    have : (5:ℚ) ≤ max 5 (min 20 (power / 200)) := le_max_left _ _
    linarith

/-- Strictly below critical power with a full tank, positive distances and
positive speeds, the tank stays exactly full after every segment: the
recovery increment is nonnegative and the clamp returns `wp` itself.  The
run visits every segment and finishes with a finite total time. -/
theorem sim_aux_below_cp (power cp wp : ℚ) (solve : ℚ → Seg → Option ℚ)
    (hp : power ≤ cp)
    (hpos : ∀ s v, solve power s = some v → 0 < v) :
    ∀ (segs : List Seg) (tAcc eAcc : ℚ), (∀ s ∈ segs, 0 < s.distance) →
      (∀ r ∈ (sim_aux power cp wp solve segs tAcc wp eAcc).results,
          r.w_remaining = wp) ∧
      (sim_aux power cp wp solve segs tAcc wp eAcc).w_remaining = wp ∧
      (sim_aux power cp wp solve segs tAcc wp eAcc).totalTime.isSome ∧
      (sim_aux power cp wp solve segs tAcc wp eAcc).results.length = segs.length := by
  intro segs
  induction segs with
  | nil => intro t e _; simp [sim_aux]
  | cons s segs ih =>
    intro t e hd
    have ht : 0 ≤ s.distance / seg_speed solve power s :=
      le_of_lt (div_pos (hd s (List.mem_cons_self s segs))
        (seg_speed_pos solve power s (fun v hv => hpos s v hv)))
    have hrec : 0 ≤ (cp - power) * (s.distance / seg_speed solve power s) :=
      mul_nonneg (sub_nonneg.mpr hp) ht
    have hmin : min (wp + (cp - power) * (s.distance / seg_speed solve power s)) wp = wp :=
      min_eq_right (le_add_of_nonneg_right hrec)
    simp only [sim_aux, if_neg (not_lt.mpr hp), sim_cons, hmin]
    obtain ⟨hall, hfin, hsome, hlen⟩ := ih (t + s.distance / seg_speed solve power s)
      (e + power * (s.distance / seg_speed solve power s))
      (fun x hx => hd x (List.mem_cons_of_mem s hx))
    refine ⟨?_, hfin, hsome, by simpa using hlen⟩
    intro r hr
    rcases List.mem_cons.mp hr with hhd | htl
    · rw [hhd]
    · exact hall r htl

/-- C10: at any constant power at or below critical power over positive
distances (with positive solver speeds), W-prime stays exactly full after
every segment, the outcome is never infeasible (finite total time) and
every segment is simulated. -/
theorem w_constant_below_cp (power cp wp : ℚ) (solve : ℚ → Seg → Option ℚ)
    (segs : List Seg) (hp : power ≤ cp)
    (hd : ∀ s ∈ segs, 0 < s.distance)
    (hpos : ∀ s v, solve power s = some v → 0 < v) :
    (∀ r ∈ (simulate_course_time power cp wp solve segs).results,
        r.w_remaining = wp) ∧
    (simulate_course_time power cp wp solve segs).w_remaining = wp ∧
    (simulate_course_time power cp wp solve segs).totalTime.isSome ∧
    (simulate_course_time power cp wp solve segs).results.length = segs.length :=
  sim_aux_below_cp power cp wp solve hp hpos segs 0 0 hd

/-- Witness for `w_constant_below_cp` at 250 W, 300 W critical power,
25 kJ tank, over one flat kilometre with the always-failing solver. -/
theorem w_constant_below_cp_witness :
    (simulate_course_time 250 300 25000 noSolve [flatKm]).w_remaining = 25000 ∧
    (simulate_course_time 250 300 25000 noSolve [flatKm]).totalTime.isSome ∧
    (simulate_course_time 250 300 25000 noSolve [flatKm]).results.length = 1 := by
  obtain ⟨-, h2, h3, h4⟩ := w_constant_below_cp 250 300 25000 noSolve [flatKm]
    (by norm_num)
    (by intro s hs; rw [List.mem_singleton.mp hs]; norm_num [flatKm])
    (by intro s v hv; simp [noSolve] at hv)
  exact ⟨h2, h3, by simpa using h4⟩

/-- Every recorded per-segment result corresponds positionally to a course
segment, and its speed is exactly the one `seg_speed` produced for that
segment (solver result, or the bounded fallback when the solver failed). -/
theorem sim_aux_speed_at (power cp wp : ℚ) (solve : ℚ → Seg → Option ℚ) :
    ∀ (segs : List Seg) (tAcc w eAcc : ℚ) (i : ℕ) (r : SegResult),
      (sim_aux power cp wp solve segs tAcc w eAcc).results.get? i = some r →
      ∃ s, segs.get? i = some s ∧ r.speed = seg_speed solve power s := by
  intro segs
  induction segs with
  | nil => intro t w e i r hr; simp [sim_aux] at hr
  | cons s segs ih =>
    intro t w e i r hr
    simp only [sim_aux] at hr
    split_ifs at hr with h1 h2
    · simp at hr
    · simp only [sim_cons] at hr
      cases i with
      | zero =>
        refine ⟨s, rfl, ?_⟩
        simp only [List.get?_cons_zero, Option.some_inj] at hr
        rw [← hr]
      | succ n =>
        simp only [List.get?_cons_succ] at hr ⊢
        exact ih _ _ _ n r hr
    · simp only [sim_cons] at hr
      cases i with
      | zero =>
        refine ⟨s, rfl, ?_⟩
        simp only [List.get?_cons_zero, Option.some_inj] at hr
        rw [← hr]
      | succ n =>
        simp only [List.get?_cons_succ] at hr ⊢
        exact ih _ _ _ n r hr

/-- C6: the simulator never propagates a solver failure.  Every recorded
result pairs with its course segment, carries the speed `seg_speed`
chose, and whenever the solver failed on that segment that speed is the
documented bounded fallback `max(5, min(20, power / 200))`; the outcome
is a structurally valid `SimOutcome` by construction. -/
theorem solver_failure_fallback (power cp wp : ℚ)
    (solve : ℚ → Seg → Option ℚ) (segs : List Seg) (i : ℕ) (r : SegResult)
    (s : Seg) (hs : segs.get? i = some s)
    (hr : (simulate_course_time power cp wp solve segs).results.get? i = some r) :
    r.speed = seg_speed solve power s ∧
      (solve power s = none → r.speed = max 5 (min 20 (power / 200))) := by
  obtain ⟨s2, hs2, hspeed⟩ :=
    sim_aux_speed_at power cp wp solve segs 0 wp 0 i r hr
  rw [hs] at hs2
  obtain rfl : s = s2 := Option.some_injective _ hs2
  refine ⟨hspeed, fun hfail => ?_⟩
  rw [hspeed]
  unfold seg_speed
  rw [hfail]

/-- Witness for `solver_failure_fallback`: with the always-failing solver
at 350 W, the single recorded segment uses the fallback speed 5 m/s. -/
theorem solver_failure_fallback_witness :
    (5:ℚ) = seg_speed noSolve 350 flatKm ∧
      (noSolve 350 flatKm = none → (5:ℚ) = max 5 (min 20 (350 / 200))) := by
  have hr : (simulate_course_time 350 300 25000 noSolve [flatKm]).results.get? 0 =
      some ⟨0, 1000, 0, 5, 200, 350, 15000, 70000⟩ := by
    norm_num [simulate_course_time, sim_aux, seg_speed, sim_cons, noSolve, flatKm]
  exact solver_failure_fallback 350 300 25000 noSolve [flatKm] 0
    ⟨0, 1000, 0, 5, 200, 350, 15000, 70000⟩ flatKm rfl hr

/-- Counterexample to C9 as stated: a row whose mean gradient is 60
percent (0.6 as a decimal, far beyond 0.4) is passed straight through to
the optimization segments by `create_course_segments_from_course`; it is
neither rejected nor clamped, only a non-fatal warning is recorded. -/
theorem gradient_validation_cx :
    ¬ (∀ s ∈ (create_course_segments_from_course [⟨1, 60, 0⟩]).1,
        |s.gradient| ≤ 2/5) := by
  intro h
  have hmem : (⟨3/5, 1000, 0, 0⟩ : Seg) ∈
      (create_course_segments_from_course [⟨1, 60, 0⟩]).1 := by
    norm_num [create_course_segments_from_course]
  have := h _ hmem
  rw [abs_of_nonneg (by norm_num : (0:ℚ) ≤ 3/5)] at this
  norm_num at this

/-- C9 amended: the ingestion boundary passes every segment through
unchanged (gradients become `gradient_mean / 100`, one output segment per
input row); gradients whose magnitude exceeds 0.5 after conversion only
set the warning flag, and nothing is rejected or clamped. -/
theorem gradient_passthrough_amended (rows : List CourseRow) :
    (create_course_segments_from_course rows).1.map Seg.gradient =
      rows.map (fun r => r.gradient_mean / 100) ∧
    (create_course_segments_from_course rows).1.length = rows.length ∧
    (create_course_segments_from_course rows).2 =
      rows.any (fun r => 1/2 < |r.gradient_mean / 100|) := by
  refine ⟨?_, ?_, rfl⟩
  · simp [create_course_segments_from_course, List.map_map, Function.comp]
  · simp [create_course_segments_from_course]

/-- Counterexample to C5 as stated: with best efforts of 300 W for 60 s
and 400 W for 120 s (power growing with duration), the unconstrained
least-squares fit of `P(t) = CP + Wprime / t` returns
`Wprime = -12000 < 0`, and the fitted curve interpolates both data points
exactly (zero residual), so every least-squares minimizer agrees; the
nonnegativity in the claim fails, and no dedicated insufficient-data
exception exists in the code. -/
theorem w_tank_fit_negative_cx :
    estimate_w_tank_from_curve [(60, 300), (120, 400)] = some (500, -12000) ∧
    ¬ (∀ p, estimate_w_tank_from_curve [(60, 300), (120, 400)] = some p →
        0 ≤ p.1 ∧ 0 ≤ p.2) ∧
    power_duration_model 60 500 (-12000) = 300 ∧
    power_duration_model 120 500 (-12000) = 400 := by
  have h : estimate_w_tank_from_curve [(60, 300), (120, 400)] =
      some (500, -12000) := by
    norm_num [estimate_w_tank_from_curve]
  refine ⟨h, fun hall => ?_, by norm_num [power_duration_model],
    by norm_num [power_duration_model]⟩
  have := (hall (500, -12000) h).2
  norm_num at this

/-- C5 amended: the curve fit is unconstrained least squares on the model
`P(t) = CP + Wprime / t` (the library call carries no parameter bounds and
no dedicated insufficient-data exception exists); on any two distinct
durations it interpolates the data exactly, and whenever the longer
duration has the larger power the fitted W-prime is strictly negative. -/
theorem w_tank_fit_unconstrained_amended (t1 t2 p1 p2 : ℚ)
    (ht1 : 0 < t1) (ht12 : t1 < t2) (hp : p1 < p2) :
    (estimate_w_tank_from_curve [(t1, p1), (t2, p2)]).isSome ∧
    ∀ cp wprime,
      estimate_w_tank_from_curve [(t1, p1), (t2, p2)] = some (cp, wprime) →
      wprime < 0 ∧
      power_duration_model t1 cp wprime = p1 ∧
      power_duration_model t2 cp wprime = p2 := by
  have ht2 : 0 < t2 := ht1.trans ht12
  have hz1 : t1 ≠ 0 := ne_of_gt ht1
  have hz2 : t2 ≠ 0 := ne_of_gt ht2
  have hx : 1/t2 < 1/t1 := one_div_lt_one_div_of_lt ht1 ht12
  have hxne : 1/t1 - 1/t2 ≠ 0 := sub_ne_zero.mpr (ne_of_gt hx)
  simp only [estimate_w_tank_from_curve, List.map_cons, List.map_nil,
    List.sum_cons, List.sum_nil, List.length_cons, List.length_nil]
  rw [show ((0 + 1 + 1 : ℕ) : ℚ) = 2 by norm_num]
  have hdeq : (2:ℚ) * (1/t1 * (1/t1) + (1/t2 * (1/t2) + 0)) -
      (1/t1 + (1/t2 + 0)) * (1/t1 + (1/t2 + 0)) = (1/t1 - 1/t2)^2 := by
    ring
  have hd : (2:ℚ) * (1/t1 * (1/t1) + (1/t2 * (1/t2) + 0)) -
      (1/t1 + (1/t2 + 0)) * (1/t1 + (1/t2 + 0)) ≠ 0 := by
    rw [hdeq]
    exact pow_ne_zero 2 hxne
  rw [if_neg hd]
  have hnum : (2:ℚ) * (1/t1 * p1 + (1/t2 * p2 + 0)) -
      (1/t1 + (1/t2 + 0)) * (p1 + (p2 + 0)) =
      (1/t1 - 1/t2) * (p1 - p2) := by ring
  refine ⟨by simp, ?_⟩
  intro cp wprime heq
  rw [Option.some_inj, Prod.mk.injEq] at heq
  obtain ⟨hcp, hwp⟩ := heq
  subst hcp
  subst hwp
  have hq : (p1 - p2) / (1/t1 - 1/t2) * (1/t1 - 1/t2) = p1 - p2 :=
    div_mul_cancel₀ _ hxne
  refine ⟨?_, ?_, ?_⟩
  · rw [hnum, hdeq, pow_two, mul_div_mul_left _ _ hxne]
    exact div_neg_of_neg_of_pos (sub_neg.mpr hp) (sub_pos.mpr hx)
  · unfold power_duration_model
    rw [hnum, hdeq, pow_two, mul_div_mul_left _ _ hxne]
    linear_combination ((1:ℚ)/2) * hq
  · unfold power_duration_model
    rw [hnum, hdeq, pow_two, mul_div_mul_left _ _ hxne]
    linear_combination (-(1:ℚ)/2) * hq

/-- Witness for `w_tank_fit_unconstrained_amended` on the best efforts
{60 s: 300 W, 120 s: 400 W}, whose unconstrained fit is
CP = 500, W-prime = -12000. -/
theorem w_tank_fit_unconstrained_amended_witness :
    ((-12000 : ℚ) < 0 ∧
      power_duration_model 60 500 (-12000) = 300 ∧
      power_duration_model 120 500 (-12000) = 400) ∧
    (estimate_w_tank_from_curve [(60, 300), (120, 400)]).isSome := by
  obtain ⟨hsome, hall⟩ := w_tank_fit_unconstrained_amended 60 120 300 400
    (by norm_num) (by norm_num) (by norm_num)
  exact ⟨hall 500 (-12000) (by norm_num [estimate_w_tank_from_curve]), hsome⟩

/-- C4: the `drivetrain_efficiency` parameter of the speed solver is never
read by the residual `power_equation`, so the residual, and with it the
set of speeds the root-finder can return, is identical for every
efficiency value: efficiency does not scale the input power. -/
theorem drivetrain_efficiency_unused (Power rho CdA Crr mass e1 e2 gradient
    v_wind v : ℝ) :
    power_equation Power rho CdA Crr mass e1 gradient v_wind v =
      power_equation Power rho CdA Crr mass e2 gradient v_wind v ∧
    (isSolveRoot Power rho CdA Crr mass e1 gradient v_wind v ↔
      isSolveRoot Power rho CdA Crr mass e2 gradient v_wind v) :=
  ⟨rfl, Iff.rfl⟩

/-- For a nonnegative gradient the gravity direction term is nonnegative. -/
theorem sin_arctan_nonneg (x : ℝ) (hx : 0 ≤ x) :
    0 ≤ Real.sin (Real.arctan x) := by
  rw [Real.sin_arctan]
  exact div_nonneg hx (Real.sqrt_nonneg _)

/-- The rolling-resistance direction term is always positive. -/
theorem cos_arctan_pos (x : ℝ) : 0 < Real.cos (Real.arctan x) := by
  rw [Real.cos_arctan]
  exact div_pos one_pos (Real.sqrt_pos.mpr (by positivity))

/-- The per-unit-weight resistive coefficient
`sin(arctan g) + Crr * cos(arctan g)` is strictly increasing in the
gradient on nonnegative gradients (with product at most one, covering all
road-like slopes) for rolling-resistance coefficients in (0, 1). -/
theorem grad_term_lt (Crr g1 g2 : ℝ) (hc : 0 < Crr) (hc1 : Crr < 1)
    (h1 : 0 ≤ g1) (h12 : g1 < g2) (hprod : g1 * g2 ≤ 1) :
    Real.sin (Real.arctan g1) + Crr * Real.cos (Real.arctan g1) <
      Real.sin (Real.arctan g2) + Crr * Real.cos (Real.arctan g2) := by
  rw [Real.sin_arctan, Real.cos_arctan, Real.sin_arctan, Real.cos_arctan]
  have hs1 : 0 < Real.sqrt (1 + g1 ^ 2) := Real.sqrt_pos.mpr (by positivity)
  have hs2 : 0 < Real.sqrt (1 + g2 ^ 2) := Real.sqrt_pos.mpr (by positivity)
  have hq1 : Real.sqrt (1 + g1 ^ 2) ^ 2 = 1 + g1 ^ 2 := Real.sq_sqrt (by positivity)
  have hq2 : Real.sqrt (1 + g2 ^ 2) ^ 2 = 1 + g2 ^ 2 := Real.sq_sqrt (by positivity)
  have hcomb1 : g1 / Real.sqrt (1 + g1 ^ 2) + Crr * (1 / Real.sqrt (1 + g1 ^ 2)) =
      (g1 + Crr) / Real.sqrt (1 + g1 ^ 2) := by
    rw [mul_one_div, div_add_div_same]
  have hcomb2 : g2 / Real.sqrt (1 + g2 ^ 2) + Crr * (1 / Real.sqrt (1 + g2 ^ 2)) =
      (g2 + Crr) / Real.sqrt (1 + g2 ^ 2) := by
    rw [mul_one_div, div_add_div_same]
  rw [hcomb1, hcomb2, div_lt_div_iff₀ hs1 hs2]
  have hg2 : 0 < g2 := lt_of_le_of_lt h1 h12
  have hkey : (g2 + Crr) ^ 2 * (1 + g1 ^ 2) - (g1 + Crr) ^ 2 * (1 + g2 ^ 2) =
      (g2 - g1) * ((g1 + g2) * (1 - Crr ^ 2) + 2 * Crr * (1 - g1 * g2)) := by
    ring
  have hbr : 0 < (g1 + g2) * (1 - Crr ^ 2) + 2 * Crr * (1 - g1 * g2) := by
    have ha : 0 < (g1 + g2) * (1 - Crr ^ 2) :=
      mul_pos (by linarith) (by nlinarith)
    have hb : 0 ≤ 2 * Crr * (1 - g1 * g2) := by nlinarith
    linarith
  have hsq : ((g1 + Crr) * Real.sqrt (1 + g2 ^ 2)) ^ 2 <
      ((g2 + Crr) * Real.sqrt (1 + g1 ^ 2)) ^ 2 := by
    rw [mul_pow, mul_pow, hq1, hq2]
    nlinarith [mul_pos (sub_pos.mpr h12) hbr]
  exact lt_of_pow_lt_pow_left₀ 2 (by positivity) hsq

/-- On positive speeds below a nonpositive wind deficit, the required
power `(A * (v - w)^2 + K) * v` is monotone in the speed when the
quadratic coefficient is positive and the linear resistive coefficient is
nonnegative. -/
theorem required_power_mono (A K w x y : ℝ) (hA : 0 < A) (hK : 0 ≤ K)
    (hw : w ≤ 0) (hx : 0 < x) (hxy : x ≤ y) :
    (A * (x - w) ^ 2 + K) * x ≤ (A * (y - w) ^ 2 + K) * y := by
  have h1 : 0 < x - w := by linarith
  have h2 : (x - w) ^ 2 ≤ (y - w) ^ 2 := by nlinarith
  have h3 : (x - w) ^ 2 * x ≤ (y - w) ^ 2 * y := by nlinarith [sq_nonneg (x - w)]
  nlinarith [mul_le_mul_of_nonneg_left h3 hA.le,
    mul_nonneg hK (sub_nonneg.mpr hxy)]

/-- C8 amended: with no tailwind (wind at most zero; the simulator always
passes its wind, 0 by default, as a headwind-or-zero in these regimes),
every speed the bracketing root-finder can return is strictly increasing
in power for positive powers at any gradient and mass; for fixed power it
is strictly decreasing in total mass on nonnegative gradients, and
strictly decreasing in gradient on nonnegative gradient pairs with
product at most one (every road-like pair of climbs).  The restriction of
the mass part to nonnegative gradients is forced by the counterexample:
on a descent where gravity outweighs rolling resistance a heavier rider
is strictly faster.  Proved for every residual root in the bracket, hence
in particular for the root brentq returns. -/
theorem speed_monotonicity_amended (rho CdA Crr eff v_wind : ℝ)
    (hrho : 0 < rho) (hCdA : 0 < CdA) (hCrr : 0 < Crr) (hCrr1 : Crr < 1)
    (hw : v_wind ≤ 0) :
    (∀ mass gradient P1 P2 v1 v2, 0 < mass → 0 < P1 →
      isSolveRoot P1 rho CdA Crr mass eff gradient v_wind v1 →
      isSolveRoot P2 rho CdA Crr mass eff gradient v_wind v2 →
      P1 < P2 → v1 < v2) ∧
    (∀ mass1 mass2 gradient P v1 v2, 0 < mass1 → mass1 < mass2 →
      0 ≤ gradient →
      isSolveRoot P rho CdA Crr mass1 eff gradient v_wind v1 →
      isSolveRoot P rho CdA Crr mass2 eff gradient v_wind v2 →
      v2 < v1) ∧
    (∀ mass gradient1 gradient2 P v1 v2, 0 < mass → 0 ≤ gradient1 →
      gradient1 < gradient2 → gradient1 * gradient2 ≤ 1 →
      isSolveRoot P rho CdA Crr mass eff gradient1 v_wind v1 →
      isSolveRoot P rho CdA Crr mass eff gradient2 v_wind v2 →
      v2 < v1) := by
  have hA : 0 < 1 / 2 * rho * CdA := by positivity
  have hG : (0:ℝ) < g_accel := by unfold g_accel; norm_num
  refine ⟨?_, ?_, ?_⟩
  · intro mass gradient P1 P2 v1 v2 hm hP1 hr1 hr2 hP
    by_contra hcon
    push_neg at hcon
    have e1 : (1 / 2 * rho * CdA * (v1 - v_wind) ^ 2 +
        (mass * g_accel * Real.sin (Real.arctan gradient) +
          mass * g_accel * Crr * Real.cos (Real.arctan gradient))) * v1 = P1 := by
      have h := hr1.1
      unfold power_equation at h
      linear_combination h
    have e2 : (1 / 2 * rho * CdA * (v2 - v_wind) ^ 2 +
        (mass * g_accel * Real.sin (Real.arctan gradient) +
          mass * g_accel * Crr * Real.cos (Real.arctan gradient))) * v2 = P2 := by
      have h := hr2.1
      unfold power_equation at h
      linear_combination h
    have hv1 : 0 < v1 := lt_of_lt_of_le (by norm_num) hr1.2.1
    have hv2 : 0 < v2 := lt_of_lt_of_le (by norm_num) hr2.2.1
    have hsq : (v2 - v_wind) ^ 2 ≤ (v1 - v_wind) ^ 2 := by nlinarith
    have hcoef : 0 < 1 / 2 * rho * CdA * (v1 - v_wind) ^ 2 +
        (mass * g_accel * Real.sin (Real.arctan gradient) +
          mass * g_accel * Crr * Real.cos (Real.arctan gradient)) := by
      rcases lt_or_le 0 (1 / 2 * rho * CdA * (v1 - v_wind) ^ 2 +
        (mass * g_accel * Real.sin (Real.arctan gradient) +
          mass * g_accel * Crr * Real.cos (Real.arctan gradient))) with h | h
      · exact h
      · nlinarith [mul_nonneg (neg_nonneg.mpr h) hv1.le]
    have key : P1 - P2 = (1 / 2 * rho * CdA * (v1 - v_wind) ^ 2 +
        (mass * g_accel * Real.sin (Real.arctan gradient) +
          mass * g_accel * Crr * Real.cos (Real.arctan gradient))) * (v1 - v2) +
        v2 * (1 / 2 * rho * CdA) *
          ((v1 - v_wind) ^ 2 - (v2 - v_wind) ^ 2) := by
      linear_combination e2 - e1
    have ht1 : 0 ≤ (1 / 2 * rho * CdA * (v1 - v_wind) ^ 2 +
        (mass * g_accel * Real.sin (Real.arctan gradient) +
          mass * g_accel * Crr * Real.cos (Real.arctan gradient))) * (v1 - v2) :=
      mul_nonneg hcoef.le (sub_nonneg.mpr hcon)
    have ht2 : 0 ≤ v2 * (1 / 2 * rho * CdA) *
        ((v1 - v_wind) ^ 2 - (v2 - v_wind) ^ 2) :=
      mul_nonneg (mul_nonneg hv2.le hA.le) (sub_nonneg.mpr hsq)
    linarith
  · intro m1 m2 gradient P v1 v2 hm1 hm12 hg hr1 hr2
    by_contra hcon
    push_neg at hcon
    have hc := cos_arctan_pos gradient
    have hs := sin_arctan_nonneg gradient hg
    have hK2 : 0 ≤ m2 * g_accel * Real.sin (Real.arctan gradient) +
        m2 * g_accel * Crr * Real.cos (Real.arctan gradient) := by
      have := hc.le
      have hm2 : 0 < m2 := hm1.trans hm12
      positivity
    have e1 : (1 / 2 * rho * CdA * (v1 - v_wind) ^ 2 +
        (m1 * g_accel * Real.sin (Real.arctan gradient) +
          m1 * g_accel * Crr * Real.cos (Real.arctan gradient))) * v1 = P := by
      have h := hr1.1
      unfold power_equation at h
      linear_combination h
    have e2 : (1 / 2 * rho * CdA * (v2 - v_wind) ^ 2 +
        (m2 * g_accel * Real.sin (Real.arctan gradient) +
          m2 * g_accel * Crr * Real.cos (Real.arctan gradient))) * v2 = P := by
      have h := hr2.1
      unfold power_equation at h
      linear_combination h
    have hv1 : 0 < v1 := lt_of_lt_of_le (by norm_num) hr1.2.1
    have hmono := required_power_mono (1 / 2 * rho * CdA)
      (m2 * g_accel * Real.sin (Real.arctan gradient) +
        m2 * g_accel * Crr * Real.cos (Real.arctan gradient))
      v_wind v1 v2 hA hK2 hw hv1 hcon
    rw [e2] at hmono
    have hKdiff : 0 < (m2 - m1) * g_accel *
        (Real.sin (Real.arctan gradient) + Crr * Real.cos (Real.arctan gradient)) := by
      have hsum : 0 < Real.sin (Real.arctan gradient) +
          Crr * Real.cos (Real.arctan gradient) := by positivity
      have hmd : 0 < m2 - m1 := sub_pos.mpr hm12
      positivity
    nlinarith [mul_pos hKdiff hv1]
  · intro mass g1 g2 P v1 v2 hm hg1 hg12 hprod hr1 hr2
    by_contra hcon
    push_neg at hcon
    have hc2 := cos_arctan_pos g2
    have hs2 : 0 ≤ Real.sin (Real.arctan g2) :=
      sin_arctan_nonneg g2 (le_of_lt (lt_of_le_of_lt hg1 hg12))
    have hK2 : 0 ≤ mass * g_accel * Real.sin (Real.arctan g2) +
        mass * g_accel * Crr * Real.cos (Real.arctan g2) := by
      have := hc2.le
      positivity
    have e1 : (1 / 2 * rho * CdA * (v1 - v_wind) ^ 2 +
        (mass * g_accel * Real.sin (Real.arctan g1) +
          mass * g_accel * Crr * Real.cos (Real.arctan g1))) * v1 = P := by
      have h := hr1.1
      unfold power_equation at h
      linear_combination h
    have e2 : (1 / 2 * rho * CdA * (v2 - v_wind) ^ 2 +
        (mass * g_accel * Real.sin (Real.arctan g2) +
          mass * g_accel * Crr * Real.cos (Real.arctan g2))) * v2 = P := by
      have h := hr2.1
      unfold power_equation at h
      linear_combination h
    have hv1 : 0 < v1 := lt_of_lt_of_le (by norm_num) hr1.2.1
    have hmono := required_power_mono (1 / 2 * rho * CdA)
      (mass * g_accel * Real.sin (Real.arctan g2) +
        mass * g_accel * Crr * Real.cos (Real.arctan g2))
      v_wind v1 v2 hA hK2 hw hv1 hcon
    rw [e2] at hmono
    have hterm := grad_term_lt Crr g1 g2 hCrr hCrr1 hg1 hg12 hprod
    have hgap : 0 < mass * g_accel *
        ((Real.sin (Real.arctan g2) + Crr * Real.cos (Real.arctan g2)) -
          (Real.sin (Real.arctan g1) + Crr * Real.cos (Real.arctan g1))) := by
      have hd := sub_pos.mpr hterm
      positivity
    nlinarith [mul_pos hgap hv1]

/-- Counterexample to C8 as stated (the mass conjunct): on a 22.5 percent
descent (gradient -9/40, whose angle has exact sine -9/41 and cosine
40/41), with rho 2, CdA 1, Crr 0.005, no wind and fixed power 375 W, the
residual of the 95.0 kg rider (mass 1025000/10791) has the UNIQUE bracket
root 15 m/s and that of the heavier 181.1 kg rider (mass 7815625/43164)
the UNIQUE bracket root 20 m/s; both brackets have the sign change brentq
needs, so the solver provably returns exactly these speeds: the returned
speed strictly increases with mass, refuting the claimed strict decrease
in mass at a fully traceable input. -/
theorem speed_mass_reversal_cx :
    isUniqueSolveRoot 375 2 1 (1/200) (1025000/10791) (19/20) (-(9/40)) 0 15 ∧
    isUniqueSolveRoot 375 2 1 (1/200) (7815625/43164) (19/20) (-(9/40)) 0 20 ∧
    power_equation 375 2 1 (1/200) (1025000/10791) (19/20) (-(9/40)) 0 (1/10) < 0 ∧
    0 < power_equation 375 2 1 (1/200) (1025000/10791) (19/20) (-(9/40)) 0 50 ∧
    power_equation 375 2 1 (1/200) (7815625/43164) (19/20) (-(9/40)) 0 (1/10) < 0 ∧
    0 < power_equation 375 2 1 (1/200) (7815625/43164) (19/20) (-(9/40)) 0 50 ∧
    (1025000/10791 : ℝ) < 7815625/43164 ∧
    ¬ (∀ mass1 mass2 P v1 v2 : ℝ, mass1 < mass2 →
        isUniqueSolveRoot P 2 1 (1/200) mass1 (19/20) (-(9/40)) 0 v1 →
        isUniqueSolveRoot P 2 1 (1/200) mass2 (19/20) (-(9/40)) 0 v2 →
        v2 < v1) := by
  have h4140 : Real.sqrt (1 + (-(9/40) : ℝ) ^ 2) = 41/40 := by
    rw [show (1 + (-(9/40) : ℝ) ^ 2) = (41/40) ^ 2 by norm_num]
    exact Real.sqrt_sq (by norm_num)
  have hs : Real.sin (Real.arctan (-(9/40) : ℝ)) = -(9/41) := by
    rw [Real.sin_arctan, h4140]
    norm_num
  have hc : Real.cos (Real.arctan (-(9/40) : ℝ)) = 40/41 := by
    rw [Real.cos_arctan, h4140]
    norm_num
  have hfac1 : ∀ u : ℝ,
      power_equation 375 2 1 (1/200) (1025000/10791) (19/20) (-(9/40)) 0 u =
        (u - 15) * (u ^ 2 + 15 * u + 25) := by
    intro u
    unfold power_equation g_accel
    rw [hs, hc]
    ring
  have hfac2 : ∀ u : ℝ,
      power_equation 375 2 1 (1/200) (7815625/43164) (19/20) (-(9/40)) 0 u =
        (u - 20) * (u ^ 2 + 20 * u + 75/4) := by
    intro u
    unfold power_equation g_accel
    rw [hs, hc]
    ring
  have hu1 : isUniqueSolveRoot 375 2 1 (1/200) (1025000/10791) (19/20)
      (-(9/40)) 0 15 := by
    refine ⟨⟨by rw [hfac1]; ring, by norm_num, by norm_num⟩, ?_⟩
    intro u h0 hlo hhi
    rw [hfac1 u] at h0
    have hq : 0 < u ^ 2 + 15 * u + 25 := by nlinarith
    rcases mul_eq_zero.mp h0 with h | h
    · linarith [sub_eq_zero.mp h]
    · linarith
  have hu2 : isUniqueSolveRoot 375 2 1 (1/200) (7815625/43164) (19/20)
      (-(9/40)) 0 20 := by
    refine ⟨⟨by rw [hfac2]; ring, by norm_num, by norm_num⟩, ?_⟩
    intro u h0 hlo hhi
    rw [hfac2 u] at h0
    have hq : 0 < u ^ 2 + 20 * u + 75/4 := by nlinarith
    rcases mul_eq_zero.mp h0 with h | h
    · linarith [sub_eq_zero.mp h]
    · linarith
  refine ⟨hu1, hu2, ?_, ?_, ?_, ?_, by norm_num, fun hmono => ?_⟩
  · rw [hfac1]
    norm_num
  · rw [hfac1]
    norm_num
  · rw [hfac2]
    norm_num
  · rw [hfac2]
    norm_num
  · have := hmono (1025000/10791) (7815625/43164) 375 15 20 (by norm_num)
      hu1 hu2
    norm_num at this

/-- Witness for `speed_monotonicity_amended` with rho 2, CdA 1, Crr 0.1,
no wind: concrete in-bracket roots exercise all three monotonicity parts
(power 2983/40 at 1 m/s against 3103/20 at 2 m/s; masses 1 and 8962/981
at power 4981/500; gradients 0 and 3/4 at power 131/12). -/
theorem speed_monotonicity_amended_witness :
    isSolveRoot (2983/40) 2 1 (1/10) 75 (19/20) 0 0 1 ∧
    isSolveRoot (3103/20) 2 1 (1/10) 75 (19/20) 0 0 2 ∧
    ((1:ℝ) < 2 ∧ (1:ℝ) < 2 ∧ (1:ℝ) < 2) := by
  have hr1 : isSolveRoot (2983/40) 2 1 (1/10) 75 (19/20) 0 0 1 := by
    refine ⟨?_, by norm_num, by norm_num⟩
    unfold power_equation g_accel
    rw [Real.arctan_zero, Real.sin_zero, Real.cos_zero]
    norm_num
  have hr2 : isSolveRoot (3103/20) 2 1 (1/10) 75 (19/20) 0 0 2 := by
    refine ⟨?_, by norm_num, by norm_num⟩
    unfold power_equation g_accel
    rw [Real.arctan_zero, Real.sin_zero, Real.cos_zero]
    norm_num
  have hm1 : isSolveRoot (4981/500) 2 1 (1/10) 1 (19/20) 0 0 2 := by
    refine ⟨?_, by norm_num, by norm_num⟩
    unfold power_equation g_accel
    rw [Real.arctan_zero, Real.sin_zero, Real.cos_zero]
    norm_num
  have hm2 : isSolveRoot (4981/500) 2 1 (1/10) (8962/981) (19/20) 0 0 1 := by
    refine ⟨?_, by norm_num, by norm_num⟩
    unfold power_equation g_accel
    rw [Real.arctan_zero, Real.sin_zero, Real.cos_zero]
    norm_num
  have h54 : Real.sqrt (1 + (3/4:ℝ) ^ 2) = 5/4 := by
    rw [show (1 + (3/4:ℝ) ^ 2) = (5/4) ^ 2 by norm_num]
    exact Real.sqrt_sq (by norm_num)
  have hs34 : Real.sin (Real.arctan (3/4 : ℝ)) = 3/5 := by
    rw [Real.sin_arctan, h54]
    norm_num
  have hc34 : Real.cos (Real.arctan (3/4 : ℝ)) = 4/5 := by
    rw [Real.cos_arctan, h54]
    norm_num
  have hg1 : isSolveRoot (131/12) 2 1 (1/10) (4375/2943) (19/20) 0 0 2 := by
    refine ⟨?_, by norm_num, by norm_num⟩
    unfold power_equation g_accel
    rw [Real.arctan_zero, Real.sin_zero, Real.cos_zero]
    norm_num
  have hg2 : isSolveRoot (131/12) 2 1 (1/10) (4375/2943) (19/20) (3/4) 0 1 := by
    refine ⟨?_, by norm_num, by norm_num⟩
    unfold power_equation g_accel
    rw [hs34, hc34]
    norm_num
  obtain ⟨hpart1, hpart2, hpart3⟩ := speed_monotonicity_amended 2 1 (1/10)
    (19/20) 0 (by norm_num) (by norm_num) (by norm_num) (by norm_num) le_rfl
  refine ⟨hr1, hr2, ?_, ?_, ?_⟩
  · exact hpart1 75 0 (2983/40) (3103/20) 1 2 (by norm_num) (by norm_num)
      hr1 hr2 (by norm_num)
  · exact hpart2 1 (8962/981) 0 (4981/500) 2 1 (by norm_num) (by norm_num)
      le_rfl hm1 hm2
  · exact hpart3 (4375/2943) 0 (3/4) (131/12) 2 1 (by norm_num) le_rfl
      (by norm_num) (by norm_num) hg1 hg2

end PaceYourself
